import Mathlib

/-!
Shallow embedding of the JUCE multi-display coordinate reconciliation code
(modules/juce_gui_basics/desktop/juce_Displays.cpp).

Modelling conventions, used throughout:
- `Rectangle<int>` becomes `RectZ` (x, y, width, height over `Int`);
  `Rectangle<float>` / `Rectangle<double>` become `RectQ` over `Rat`, so the
  double-precision resolution arithmetic is modelled exactly and the final
  `toFloat()` narrowing is the identity.
- `juce::approximatelyEqual`, whose tolerance only absorbs sub-pixel
  floating-point slop, degenerates to exact equality of rationals.
- A `Display*` result of a lookup is modelled as an `Option Nat` index into
  the display list (pointer identity = index identity).
- `std::numeric_limits<int>::max()` / `<float>::max()` "no candidate yet"
  sentinels of the search loops are modelled as an `Option`-none initial
  accumulator; the first candidate always replaces the sentinel, exactly as
  every finite distance compares below the numeric-limits sentinel.
- `Point<float>::getDistanceFrom` (a `std::hypot` cast back to the value
  type) is modelled as the integer square root of the squared distance for
  integer points, and the root-selection distance comparison on floats is
  modelled by comparing squared distances (strictly monotone in the true
  distance).  No theorem below depends on the value of either quantity.
- The recursive `processDisplay` C++ function traverses the display graph
  depth-first through the call stack; it is modelled with an explicit
  work-stack and a fuel bound, preserving the exact order in which nodes are
  placed, linked and recursed into.
-/

namespace JuceDisplays

/-- Model of an integer juce::Point. -/
structure PtZ where
  x : ℤ
  y : ℤ
  deriving DecidableEq

/-- Model of a floating-point juce::Point, over the rationals. -/
structure PtQ where
  x : ℚ
  y : ℚ
  deriving DecidableEq

/-- Model of juce::Rectangle over integers: position plus size. -/
structure RectZ where
  x : ℤ
  y : ℤ
  w : ℤ
  h : ℤ
  deriving DecidableEq

/-- Model of juce::Rectangle over the rationals: position plus size. -/
structure RectQ where
  x : ℚ
  y : ℚ
  w : ℚ
  h : ℚ
  deriving DecidableEq

/-- Rectangle::getRight, integer case. -/
def RectZ.right (r : RectZ) : ℤ := r.x + r.w

/-- Rectangle::getBottom, integer case. -/
def RectZ.bottom (r : RectZ) : ℤ := r.y + r.h

/-- Rectangle::getRight, rational case. -/
def RectQ.right (r : RectQ) : ℚ := r.x + r.w

/-- Rectangle::getBottom, rational case. -/
def RectQ.bottom (r : RectQ) : ℚ := r.y + r.h

/-- Rectangle::getTopLeft, rational case. -/
def RectQ.topLeft (r : RectQ) : PtQ := { x := r.x, y := r.y }

/-- Rectangle::getIntersection on Rectangle<int>: the clipped rectangle, or
the default (all-zero) rectangle when the two do not intersect. -/
def RectZ.getIntersection (a b : RectZ) : RectZ :=
  let nx := max a.x b.x
  let ny := max a.y b.y
  let nw := min a.right b.right - nx
  if 0 ≤ nw then
    let nh := min a.bottom b.bottom - ny
    if 0 ≤ nh then { x := nx, y := ny, w := nw, h := nh }
    else { x := 0, y := 0, w := 0, h := 0 }
  else { x := 0, y := 0, w := 0, h := 0 }

/-- Width times height, as computed by getDisplayForRect on the
intersection rectangle. -/
def RectZ.area (r : RectZ) : ℤ := r.w * r.h

/-- Rectangle<int>::contains (Point<int>): half-open containment test
(left and top edges included, right and bottom excluded). -/
def RectZ.containsPt (r : RectZ) (p : PtZ) : Prop :=
  r.x ≤ p.x ∧ r.y ≤ p.y ∧ p.x < r.right ∧ p.y < r.bottom

instance (r : RectZ) (p : PtZ) : Decidable (r.containsPt p) := by
  unfold RectZ.containsPt
  infer_instance

/-- Rectangle<int>::getCentre: position plus half the size, with C++
truncating integer division. -/
def RectZ.centre (r : RectZ) : PtZ := { x := r.x + r.w.tdiv 2, y := r.y + r.h.tdiv 2 }

/-- Point<int>::getDistanceFrom: std::hypot on the coordinate deltas cast
back to int, modelled as the integer square root of the squared distance. -/
def centreDistance (c p : PtZ) : ℤ :=
  Int.ofNat (Nat.sqrt (((c.x - p.x) * (c.x - p.x) + (c.y - p.y) * (c.y - p.y)).toNat))

/-- Rounding a float to int (juce roundToInt), modelled as round-to-nearest
on the rationals.  None of the statements proved below evaluates it at a
half-integer, where the C++ round-half-to-even tie rule could differ. -/
def roundQ (q : ℚ) : ℤ := round q

/-- Rectangle<float>::toNearestInt: round position and size. -/
def roundRectQ (r : RectQ) : RectZ :=
  { x := roundQ r.x, y := roundQ r.y, w := roundQ r.w, h := roundQ r.h }

/-- Point<float>::roundToInt. -/
def roundPtQ (p : PtQ) : PtZ := { x := roundQ p.x, y := roundQ p.y }

/-- Casting an integer rectangle to a rational one (toFloat / toDouble). -/
def intRectToQ (r : RectZ) : RectQ :=
  { x := (r.x : ℚ), y := (r.y : ℚ), w := (r.w : ℚ), h := (r.h : ℚ) }

/-- Rectangle translation by the negated point (Rectangle operator- Point). -/
def rectSubPt (r : RectQ) (p : PtQ) : RectQ := { r with x := r.x - p.x, y := r.y - p.y }

/-- Rectangle translation by a point (Rectangle operator+ Point). -/
def rectAddPt (r : RectQ) (p : PtQ) : RectQ := { r with x := r.x + p.x, y := r.y + p.y }

/-- Rectangle operator/ by a scalar: divides position and size. -/
def rectDivQ (r : RectQ) (s : ℚ) : RectQ :=
  { x := r.x / s, y := r.y / s, w := r.w / s, h := r.h / s }

/-- Rectangle operator* by a scalar: scales position and size. -/
def rectMulQ (r : RectQ) (s : ℚ) : RectQ :=
  { x := r.x * s, y := r.y * s, w := r.w * s, h := r.h * s }

/-- Model of juce::BorderSize<int> (the inset records carried by a
display; only compared for equality, never computed with). -/
structure BorderZ where
  top : ℤ
  left : ℤ
  bottom : ℤ
  right : ℤ
  deriving DecidableEq

/-- Model of Displays::Display, with exactly the fields compared by the
tie-based operator== of the source.  Before resolution, logicalBounds and
userBounds carry the raw physical values reported by the platform layer. -/
structure Display where
  dpi : ℚ
  isMain : Bool
  keyboardInsets : BorderZ
  safeAreaInsets : BorderZ
  scale : ℚ
  topLeftPhysical : PtZ
  totalArea : RectZ
  userArea : RectZ
  logicalBounds : RectQ
  userBounds : RectQ
  physicalBounds : RectZ
  deriving DecidableEq

/-- The bounds a lookup compares against: physicalBounds when isPhysical,
otherwise logicalBounds.toNearestInt(). -/
def boundsOf (isPhysical : Bool) (d : Display) : RectZ :=
  if isPhysical then d.physicalBounds else roundRectQ d.logicalBounds

/-- The loop body of Displays::getDisplayForRect: keep the display whose
bounds has the largest intersection area with the query, the comparison
being area >= maxArea with maxArea starting at -1 (so later equal areas
overwrite earlier ones). -/
def findRectLoop (r : RectZ) (b : Bool) : List Display → Nat → ℤ → Option Nat → Option Nat
  | [], _, _, best => best
  | d :: rest, i, maxArea, best =>
    let a := ((boundsOf b d).getIntersection r).area
    if maxArea ≤ a then findRectLoop r b rest (i + 1) a (some i)
    else findRectLoop r b rest (i + 1) maxArea best

/-- Displays::getDisplayForRect, returning the index of the found display. -/
def getDisplayForRectIdx (ds : List Display) (r : RectZ) (b : Bool) : Option Nat :=
  findRectLoop r b ds 0 (-1) none

/-- The loop body of Displays::getDisplayForPoint: return immediately on
containment, otherwise keep the display whose bounds centre is nearest
(distance <= minDistance, minDistance starting at INT_MAX, modelled as an
Option-none accumulator; so later equal distances overwrite). -/
def findPointLoop (p : PtZ) (b : Bool) : List Display → Nat → Option (ℤ × Nat) → Option Nat
  | [], _, best => Option.map Prod.snd best
  | d :: rest, i, best =>
    let area := boundsOf b d
    if area.containsPt p then some i
    else
      let dist := centreDistance area.centre p
      match best with
      | none => findPointLoop p b rest (i + 1) (some (dist, i))
      | some (minD, bi) =>
        if dist ≤ minD then findPointLoop p b rest (i + 1) (some (dist, i))
        else findPointLoop p b rest (i + 1) (some (minD, bi))

/-- Displays::getDisplayForPoint, returning the index of the found display. -/
def getDisplayForPointIdx (ds : List Display) (p : PtZ) (b : Bool) : Option Nat :=
  findPointLoop p b ds 0 none

/-- Displays::physicalToLogical (Rectangle<float> overload): use the given
display if any, otherwise look one up by the rounded rectangle in physical
space; on a null display return the input unchanged. -/
def physicalToLogicalRect (ds : List Display) (useDisplay : Option Display) (r : RectQ) : RectQ :=
  let found := match useDisplay with
    | some d => some d
    | none => Option.bind (getDisplayForRectIdx ds (roundRectQ r) true) ds.get?
  match found with
  | none => r
  | some d =>
    rectAddPt
      (rectDivQ (rectSubPt r { x := (d.physicalBounds.x : ℚ), y := (d.physicalBounds.y : ℚ) }) d.scale)
      d.logicalBounds.topLeft

/-- Displays::logicalToPhysical (Rectangle<float> overload). -/
def logicalToPhysicalRect (ds : List Display) (useDisplay : Option Display) (r : RectQ) : RectQ :=
  let found := match useDisplay with
    | some d => some d
    | none => Option.bind (getDisplayForRectIdx ds (roundRectQ r) false) ds.get?
  match found with
  | none => r
  | some d =>
    rectAddPt (rectMulQ (rectSubPt r d.logicalBounds.topLeft) d.scale)
      { x := (d.physicalBounds.x : ℚ), y := (d.physicalBounds.y : ℚ) }

/-- Displays::physicalToLogical (Point overload, float instantiation). -/
def physicalToLogicalPoint (ds : List Display) (useDisplay : Option Display) (p : PtQ) : PtQ :=
  let found := match useDisplay with
    | some d => some d
    | none => Option.bind (getDisplayForPointIdx ds (roundPtQ p) true) ds.get?
  match found with
  | none => p
  | some d =>
    { x := (p.x - (d.physicalBounds.x : ℚ)) / d.scale + d.logicalBounds.x,
      y := (p.y - (d.physicalBounds.y : ℚ)) / d.scale + d.logicalBounds.y }

/-- Displays::logicalToPhysical (Point overload, float instantiation). -/
def logicalToPhysicalPoint (ds : List Display) (useDisplay : Option Display) (p : PtQ) : PtQ :=
  let found := match useDisplay with
    | some d => some d
    | none => Option.bind (getDisplayForPointIdx ds (roundPtQ p) false) ds.get?
  match found with
  | none => p
  | some d =>
    { x := (p.x - d.logicalBounds.x) * d.scale + (d.physicalBounds.x : ℚ),
      y := (p.y - d.logicalBounds.y) * d.scale + (d.physicalBounds.y : ℚ) }

/-- The tie-based full-field equality of Displays::Display (static
operator==): every one of the eleven fields must compare equal. -/
def displayEq (a b : Display) : Prop :=
  a.dpi = b.dpi ∧ a.isMain = b.isMain ∧ a.keyboardInsets = b.keyboardInsets ∧
  a.safeAreaInsets = b.safeAreaInsets ∧ a.scale = b.scale ∧
  a.topLeftPhysical = b.topLeftPhysical ∧ a.totalArea = b.totalArea ∧
  a.userArea = b.userArea ∧ a.logicalBounds = b.logicalBounds ∧
  a.userBounds = b.userBounds ∧ a.physicalBounds = b.physicalBounds

instance (a b : Display) : Decidable (displayEq a b) := by
  unfold displayEq
  infer_instance

/-- Array<Display> equality: same size and element-wise operator==. -/
def displaysEqList : List Display → List Display → Prop
  | [], [] => True
  | a :: xs, b :: ys => displayEq a b ∧ displaysEqList xs ys
  | _, _ => False

def displaysEqListDec : ∀ (xs ys : List Display), Decidable (displaysEqList xs ys)
  | [], [] => by unfold displaysEqList; infer_instance
  | _ :: _, [] => by unfold displaysEqList; infer_instance
  | [], _ :: _ => by unfold displaysEqList; infer_instance
  | a :: xs, b :: ys =>
    have : Decidable (displaysEqList xs ys) := displaysEqListDec xs ys
    by unfold displaysEqList; infer_instance

instance (xs ys : List Display) : Decidable (displaysEqList xs ys) := displaysEqListDec xs ys

/-- Displays::refresh, with the platform re-enumeration and re-resolution
result passed in as the new record list (findDisplays is platform code
outside this translation unit): the peers notified by
handleScreenSizeChange are all live peers when the old and new record
lists differ under the tie-based equality, and none otherwise. -/
def refreshNotifications (oldDisplays newDisplays : List Display) (peers : List Nat) : List Nat :=
  if displaysEqList oldDisplays newDisplays then [] else peers

/-- Model of the ephemeral DisplayNode of the resolution pass.  The
display back-pointer is replaced by a snapshot of the two fields the pass
reads from it (the pre-resolution logicalBounds, which still holds the raw
physical rectangle, and the scale); the parent pointer becomes an index. -/
structure NodeSt where
  bounds : RectQ
  scale : ℚ
  isRoot : Bool
  parent : Option Nat
  logicalArea : RectQ
  deriving DecidableEq

/-- The four coordinate comparisons of the child scan in processDisplay:
the left edge of the other display meets our right edge, or its right edge
meets our left edge, or its top edge meets our bottom edge, or its bottom
edge meets our top edge (approximatelyEqual, here exact on rationals).
Note this compares single coordinates only; it does not require any
overlap in the perpendicular direction. -/
def coordAdj (other phys : RectQ) : Prop :=
  other.x = phys.right ∨ other.right = phys.x ∨ other.y = phys.bottom ∨ other.bottom = phys.y

instance (a b : RectQ) : Decidable (coordAdj a b) := by
  unfold coordAdj
  infer_instance

/-- The non-root placement arithmetic of processDisplay: width and height
are the physical size over the own scale of the node, and the position is
chosen by the first of the four approximatelyEqual edge tests that
matches against the physical rectangle of the parent (left, right, top,
bottom); when none matches (the jassertfalse branch) the position stays
at the origin the local variable was initialised with. -/
def placeChild (physArea : RectQ) (scale : ℚ) (physParent logicalParent : RectQ)
    (parentScale : ℚ) : RectQ :=
  let w := physArea.w / scale
  let h := physArea.h / scale
  if physArea.right = physParent.x then
    { x := logicalParent.x - w, y := physArea.y / parentScale, w := w, h := h }
  else if physArea.x = physParent.right then
    { x := logicalParent.right, y := physArea.y / parentScale, w := w, h := h }
  else if physArea.bottom = physParent.y then
    { x := physArea.x / parentScale, y := logicalParent.y - h, w := w, h := h }
  else if physArea.y = physParent.bottom then
    { x := physArea.x / parentScale, y := logicalParent.bottom, w := w, h := h }
  else
    { x := 0, y := 0, w := w, h := h }

/-- The child-scan loop of processDisplay: walk all nodes (the first
argument is the index of the head of the remaining node list), link every
node that has no parent yet and whose rectangle passes one of the four
coordinate comparisons against the current physical area, and also return
the linked indices in scan order. -/
def linkChildren (physArea : RectQ) (cur : Nat) : Nat → List NodeSt → List NodeSt × List Nat
  | _, [] => ([], [])
  | j, n :: rest =>
    let scanned := linkChildren physArea cur (j + 1) rest
    if n.parent = none ∧ coordAdj n.bounds physArea then
      ({ n with parent := some cur } :: scanned.1, j :: scanned.2)
    else
      (n :: scanned.1, scanned.2)

/-- The recursive processDisplay traversal.  The C++ function recurses
depth-first through the call stack; this model keeps an explicit stack of
node indices (children are pushed in scan order in front of the pending
work, giving the identical processing order) and a fuel bound large
enough for every real traversal, since each node is pushed at most once. -/
def processLoop : Nat → List Nat → List NodeSt → List NodeSt
  | 0, _, nodes => nodes
  | _ + 1, [], nodes => nodes
  | fuel + 1, cur :: pending, nodes =>
    match nodes.get? cur with
    | none => processLoop fuel pending nodes
    | some n =>
      if n.isRoot then
        let nodes1 := nodes.set cur
          { n with logicalArea := rectDivQ n.bounds n.scale, parent := some cur }
        let scanned := linkChildren n.bounds cur 0 nodes1
        processLoop fuel (scanned.2 ++ pending) scanned.1
      else
        match n.parent.bind nodes.get? with
        | none => processLoop fuel pending nodes
        | some pn =>
          let nodes1 := nodes.set cur
            { n with logicalArea := placeChild n.bounds n.scale pn.bounds pn.logicalArea pn.scale }
          let scanned := linkChildren n.bounds cur 0 nodes1
          processLoop fuel (scanned.2 ++ pending) scanned.1

/-- Node construction at the start of Displays::updateToLogical: the root
flag is set when the raw top-left is exactly the origin. -/
def initNode (d : Display) : NodeSt :=
  { bounds := d.logicalBounds, scale := d.scale,
    isRoot := if d.logicalBounds.x = 0 ∧ d.logicalBounds.y = 0 then true else false,
    parent := none,
    logicalArea := { x := 0, y := 0, w := 0, h := 0 } }

/-- First node already flagged as root (the first origin top-left). -/
def firstRootIdx : Nat → List NodeSt → Option Nat
  | _, [] => none
  | i, n :: rest => if n.isRoot then some i else firstRootIdx (i + 1) rest

/-- Fallback root search of updateToLogical: the first node whose
top-left is strictly closer to the origin than every earlier minimum
(distance < minDistance, minDistance starting at FLT_MAX, modelled as an
Option-none accumulator; comparing squared distances is equivalent to
comparing the float square-root distances with strict less-than). -/
def minDistLoop : Nat → Option (ℚ × Nat) → List NodeSt → Option Nat
  | _, best, [] => Option.map Prod.snd best
  | i, best, n :: rest =>
    let dsq := n.bounds.x * n.bounds.x + n.bounds.y * n.bounds.y
    match best with
    | none => minDistLoop (i + 1) (some (dsq, i)) rest
    | some (m, bi) =>
      if dsq < m then minDistLoop (i + 1) (some (dsq, i)) rest
      else minDistLoop (i + 1) (some (m, bi)) rest

/-- Root selection of updateToLogical: the first node flagged isRoot, and
otherwise the first node with minimal distance from the origin. -/
def selectRootIdx (nodes : List NodeSt) : Option Nat :=
  match firstRootIdx 0 nodes with
  | some i => some i
  | none => minDistLoop 0 none nodes

/-- Setting the isRoot flag of the chosen fallback root (a no-op for a
root found through the origin test, which is already flagged). -/
def markRoot (nodes : List NodeSt) (i : Nat) : List NodeSt :=
  match nodes.get? i with
  | none => nodes
  | some n => nodes.set i { n with isRoot := true }

/-- The node states after the graph pass of updateToLogical: build a node
per display, choose the root, and traverse from it.  On an empty display
list there is no root (the jassert root != nullptr situation) and the
nodes are returned untouched. -/
def resolveNodes (displays : List Display) : List NodeSt :=
  let nodes := displays.map initNode
  match selectRootIdx nodes with
  | none => nodes
  | some r => processLoop (displays.length + 1) [r] (markRoot nodes r)

/-- The write-back step at the end of updateToLogical: the user bounds are
re-anchored at the resolved logical top-left after removing the raw
top-left offset and dividing by the scale, and the logical bounds become
the logical area computed for its node. -/
def resolveDisplay (d : Display) (n : NodeSt) : Display :=
  let unscaledUserArea := rectSubPt d.userBounds d.logicalBounds.topLeft
  let relativeUserArea := rectDivQ unscaledUserArea d.scale
  { d with logicalBounds := n.logicalArea,
           userBounds := rectAddPt relativeUserArea n.logicalArea.topLeft }

/-- Displays::updateToLogical: the single-display fast path divides both
rectangles by the scale; otherwise the graph is built, traversed from the
root, and every display is rewritten from its node. -/
def updateToLogical (displays : List Display) : List Display :=
  match displays with
  | [d] =>
    [{ d with logicalBounds := rectDivQ d.logicalBounds d.scale,
              userBounds := rectDivQ d.userBounds d.scale }]
  | _ =>
    let nodes := resolveNodes displays
    (displays.zip nodes).map fun dn => resolveDisplay dn.1 dn.2

/-- Modelled from the spec: two rectangles share an edge (touch on a
left, right, top or bottom side) when the matching edge coordinates meet
and the perpendicular ranges overlap in a segment of positive length.
This is the geometric notion of touching used by the spec, stated here
only to be compared with the coordinate test of the code. -/
def sharesEdgeSpec (a b : RectQ) : Prop :=
  ((a.right = b.x ∨ b.right = a.x) ∧ max a.y b.y < min a.bottom b.bottom) ∨
  ((a.bottom = b.y ∨ b.bottom = a.y) ∧ max a.x b.x < min a.right b.right)

instance (a b : RectQ) : Decidable (sharesEdgeSpec a b) := by
  unfold sharesEdgeSpec
  infer_instance

/-- Modelled from the spec: a point strictly inside a rectangle (all four
inequalities strict), the hypothesis of the containment short-circuit
property as the spec words it. -/
def strictlyInsideSpec (r : RectZ) (p : PtZ) : Prop :=
  r.x < p.x ∧ p.x < r.right ∧ r.y < p.y ∧ p.y < r.bottom

instance (r : RectZ) (p : PtZ) : Decidable (strictlyInsideSpec r p) := by
  unfold strictlyInsideSpec
  infer_instance

/-- A display record as the platform layer hands it to updateToLogical:
logicalBounds and userBounds still carry the raw physical rectangle. -/
def mkDisplay (phys : RectZ) (scale : ℚ) (main : Bool) : Display :=
  { dpi := 96, isMain := main,
    keyboardInsets := { top := 0, left := 0, bottom := 0, right := 0 },
    safeAreaInsets := { top := 0, left := 0, bottom := 0, right := 0 },
    scale := scale,
    topLeftPhysical := { x := phys.x, y := phys.y },
    totalArea := phys, userArea := phys,
    logicalBounds := intRectToQ phys, userBounds := intRectToQ phys,
    physicalBounds := phys }

/-- The two-display scenario of the spec: display A physical
[0,0,1920,1080] at scale 1, display B physical [1920,0,1280,1024] at
scale 2, touching on the right edge of A. -/
def cfgC1 : List Display :=
  [mkDisplay { x := 0, y := 0, w := 1920, h := 1080 } 1 true,
   mkDisplay { x := 1920, y := 0, w := 1280, h := 1024 } 2 false]

/-- Display used by several concrete scenarios below. -/
def dispSquare : Display := mkDisplay { x := 0, y := 0, w := 10, h := 10 } 1 true

/-- A query rectangle far away from dispSquare. -/
def rectFar : RectZ := { x := 1000, y := 1000, w := 10, h := 10 }

/-- A second display with the same intersection area as dispSquare
against the query square at the origin. -/
def dispTall : Display := mkDisplay { x := 0, y := 0, w := 10, h := 20 } 1 false

/-- A query rectangle covering dispSquare exactly. -/
def rectQuery : RectZ := { x := 0, y := 0, w := 10, h := 10 }

/-- A display positioned so that the probe point sits on the top-left
corner of its bounds. -/
def dispCorner : Display := mkDisplay { x := 0, y := 0, w := 10, h := 10 } 1 true

/-- A display strictly containing the probe point. -/
def dispAround : Display := mkDisplay { x := -5, y := -5, w := 10, h := 10 } 1 false

/-- The probe point of the C9 counterexample. -/
def probePt : PtZ := { x := 0, y := 0 }

/-- Three displays for the continuity counterexample: A [0,0,100,100] at
scale 1 (root), B [100,0,100,100] at scale 2 (touching the right edge of
A), D [100,100,100,100] at scale 1 (touching the bottom edge of B, meeting A
only at the corner point (100,100)). -/
def cfgC2 : List Display :=
  [mkDisplay { x := 0, y := 0, w := 100, h := 100 } 1 true,
   mkDisplay { x := 100, y := 0, w := 100, h := 100 } 2 false,
   mkDisplay { x := 100, y := 100, w := 100, h := 100 } 1 false]

/-- Two displays for the adjacency counterexample: A [0,0,100,100] at the
origin and D [100,200,100,100], whose left-edge coordinate equals the
right-edge coordinate of A while their vertical ranges are disjoint, so the
rectangles do not touch anywhere. -/
def cfgC3 : List Display :=
  [mkDisplay { x := 0, y := 0, w := 100, h := 100 } 1 true,
   mkDisplay { x := 100, y := 200, w := 100, h := 100 } 1 false]

/-- C1: in the two-display configuration (A physical [0,0,1920,1080] at
scale 1, B physical [1920,0,1280,1024] at scale 2, touching on the right
edge of A) updateToLogical selects A as the root and resolves
A.logicalBounds = [0,0,1920,1080] and B.logicalBounds = [1920,0,640,512]. -/
theorem claim_C1_two_display_example :
    selectRootIdx (cfgC1.map initNode) = some 0 ∧
    (updateToLogical cfgC1).map Display.logicalBounds =
      [{ x := 0, y := 0, w := 1920, h := 1080 }, { x := 1920, y := 0, w := 640, h := 512 }] := by
  constructor
  · norm_num [cfgC1, mkDisplay, initNode, intRectToQ, selectRootIdx, firstRootIdx]
  · norm_num [cfgC1, mkDisplay, initNode, intRectToQ, updateToLogical, resolveNodes,
      selectRootIdx, firstRootIdx, markRoot, processLoop, linkChildren, coordAdj,
      placeChild, rectDivQ, rectSubPt, rectAddPt, RectQ.right, RectQ.bottom,
      RectQ.topLeft, resolveDisplay, Option.some_ne_none, List.zip, List.zipWith,
      Function.comp]

/-- C4: with exactly one display, updateToLogical sets its logicalBounds
to the physical bounds divided by the scale factor and its userBounds to
the raw user bounds divided by the scale, exactly.  The hypothesis is the
documented precondition of the resolver: before resolution logicalBounds holds
the raw physical rectangle. -/
theorem claim_C4_single_display (d : Display)
    (h : d.logicalBounds = intRectToQ d.physicalBounds) :
    (updateToLogical [d]).map Display.logicalBounds =
      [rectDivQ (intRectToQ d.physicalBounds) d.scale] ∧
    (updateToLogical [d]).map Display.userBounds = [rectDivQ d.userBounds d.scale] := by
  simp [updateToLogical, h]

/-- Witness for C4 at a concrete display. -/
theorem claim_C4_single_display_witness :
    (updateToLogical [mkDisplay { x := 4, y := 6, w := 10, h := 20 } 2 true]).map
        Display.logicalBounds =
      [rectDivQ (intRectToQ { x := 4, y := 6, w := 10, h := 20 }) 2] ∧
    (updateToLogical [mkDisplay { x := 4, y := 6, w := 10, h := 20 } 2 true]).map
        Display.userBounds =
      [rectDivQ (intRectToQ { x := 4, y := 6, w := 10, h := 20 }) 2] :=
  claim_C4_single_display (mkDisplay { x := 4, y := 6, w := 10, h := 20 } 2 true) rfl

/-- C5: for every point and every display passed explicitly to the
conversions, physicalToLogical after logicalToPhysical is the identity;
the only premise is the scale of the display being nonzero (in exact rational
arithmetic the round trip is exact, so the floating tolerance of the
claim is not needed). -/
theorem claim_C5_point_roundtrip (ds : List Display) (d : Display) (p : PtQ)
    (h : d.scale ≠ 0) :
    physicalToLogicalPoint ds (some d) (logicalToPhysicalPoint ds (some d) p) = p := by
  obtain ⟨px, py⟩ := p
  simp only [physicalToLogicalPoint, logicalToPhysicalPoint]
  have hx : (px - d.logicalBounds.x) * d.scale + (d.physicalBounds.x : ℚ) -
      (d.physicalBounds.x : ℚ) = (px - d.logicalBounds.x) * d.scale := by ring
  have hy : (py - d.logicalBounds.y) * d.scale + (d.physicalBounds.y : ℚ) -
      (d.physicalBounds.y : ℚ) = (py - d.logicalBounds.y) * d.scale := by ring
  simp only [hx, hy]
  congr 1 <;> field_simp

/-- Witness for C5 at a concrete display and point. -/
theorem claim_C5_point_roundtrip_witness :
    physicalToLogicalPoint [] (some (mkDisplay { x := 0, y := 0, w := 10, h := 10 } 2 true))
      (logicalToPhysicalPoint [] (some (mkDisplay { x := 0, y := 0, w := 10, h := 10 } 2 true))
        { x := 3, y := 5 }) = { x := 3, y := 5 } :=
  claim_C5_point_roundtrip [] (mkDisplay { x := 0, y := 0, w := 10, h := 10 } 2 true)
    { x := 3, y := 5 } (by norm_num [mkDisplay])

/-- C7: when no explicit display is given and the lookup resolves no
display (it returns none), every coordinate conversion returns its input
unchanged: the rectangle and point overloads of physicalToLogical and
logicalToPhysical are all identity pass-throughs, not errors. -/
theorem claim_C7_identity_fallback (ds : List Display) (r : RectQ) (p : PtQ) :
    (getDisplayForRectIdx ds (roundRectQ r) true = none →
      physicalToLogicalRect ds none r = r) ∧
    (getDisplayForRectIdx ds (roundRectQ r) false = none →
      logicalToPhysicalRect ds none r = r) ∧
    (getDisplayForPointIdx ds (roundPtQ p) true = none →
      physicalToLogicalPoint ds none p = p) ∧
    (getDisplayForPointIdx ds (roundPtQ p) false = none →
      logicalToPhysicalPoint ds none p = p) := by
  refine ⟨fun h => ?_, fun h => ?_, fun h => ?_, fun h => ?_⟩ <;>
    simp [physicalToLogicalRect, logicalToPhysicalRect, physicalToLogicalPoint,
      logicalToPhysicalPoint, h]

/-- Witness for C7 on the empty display collection, where every lookup
returns none. -/
theorem claim_C7_identity_fallback_witness :
    physicalToLogicalRect [] none { x := 1, y := 2, w := 3, h := 4 } =
      { x := 1, y := 2, w := 3, h := 4 } ∧
    logicalToPhysicalRect [] none { x := 1, y := 2, w := 3, h := 4 } =
      { x := 1, y := 2, w := 3, h := 4 } ∧
    physicalToLogicalPoint [] none { x := 5, y := 6 } = { x := 5, y := 6 } ∧
    logicalToPhysicalPoint [] none { x := 5, y := 6 } = { x := 5, y := 6 } :=
  ⟨(claim_C7_identity_fallback [] { x := 1, y := 2, w := 3, h := 4 } { x := 5, y := 6 }).1 rfl,
   (claim_C7_identity_fallback [] { x := 1, y := 2, w := 3, h := 4 } { x := 5, y := 6 }).2.1 rfl,
   (claim_C7_identity_fallback [] { x := 1, y := 2, w := 3, h := 4 } { x := 5, y := 6 }).2.2.1 rfl,
   (claim_C7_identity_fallback [] { x := 1, y := 2, w := 3, h := 4 } { x := 5, y := 6 }).2.2.2 rfl⟩

/-- The intersection-area accumulator of getDisplayForRect never goes
negative: the clipped rectangle has nonnegative sides, and the
no-intersection default is the all-zero rectangle. -/
theorem interArea_nonneg (a q : RectZ) : 0 ≤ (a.getIntersection q).area := by
  simp only [RectZ.getIntersection, RectZ.area]
  split_ifs with h1 h2
  · exact mul_nonneg h1 h2
  · simp
  · simp

/-- When the intersection area of every remaining display is strictly below
the running maximum, the getDisplayForRect loop keeps its current best. -/
theorem findRectLoop_no_update (r : RectZ) (b : Bool) :
    ∀ (l : List Display) (i : Nat) (m : ℤ) (best : Option Nat),
      (∀ d ∈ l, ((boundsOf b d).getIntersection r).area < m) →
      findRectLoop r b l i m best = best
  | [], _, _, _, _ => rfl
  | d :: rest, i, m, best, h => by
    have hd : ¬ m ≤ ((boundsOf b d).getIntersection r).area :=
      not_le.mpr (h d (List.mem_cons_self d rest))
    simp only [findRectLoop, if_neg hd]
    exact findRectLoop_no_update r b rest (i + 1) m best
      fun x hx => h x (List.mem_cons_of_mem d hx)

/-- The getDisplayForRect loop returns the position of the last display
attaining the maximal intersection area: every display before it reaches
at most its area, every display after it stays strictly below, and the
running maximum does not exceed it. -/
theorem findRectLoop_last_max (r : RectZ) (b : Bool) :
    ∀ (pre : List Display) (dj : Display) (post : List Display) (i : Nat) (m : ℤ)
      (best : Option Nat),
      m ≤ ((boundsOf b dj).getIntersection r).area →
      (∀ d ∈ pre,
        ((boundsOf b d).getIntersection r).area ≤ ((boundsOf b dj).getIntersection r).area) →
      (∀ d ∈ post,
        ((boundsOf b d).getIntersection r).area < ((boundsOf b dj).getIntersection r).area) →
      findRectLoop r b (pre ++ dj :: post) i m best = some (i + pre.length)
  | [], dj, post, i, m, best, hm, _, hpost => by
    simp only [List.nil_append, findRectLoop, if_pos hm, List.length_nil, Nat.add_zero]
    exact findRectLoop_no_update r b post (i + 1) _ (some i) hpost
  | d :: pre, dj, post, i, m, best, hm, hpre, hpost => by
    have hd : ((boundsOf b d).getIntersection r).area ≤
        ((boundsOf b dj).getIntersection r).area :=
      hpre d (List.mem_cons_self d pre)
    have hpre2 : ∀ x ∈ pre,
        ((boundsOf b x).getIntersection r).area ≤ ((boundsOf b dj).getIntersection r).area :=
      fun x hx => hpre x (List.mem_cons_of_mem d hx)
    simp only [List.cons_append, findRectLoop, List.append_eq]
    by_cases hcmp : m ≤ ((boundsOf b d).getIntersection r).area
    · rw [if_pos hcmp,
        findRectLoop_last_max r b pre dj post (i + 1) _ (some i) hd hpre2 hpost]
      congr 1
      simp only [List.length_cons]
      omega
    · rw [if_neg hcmp, findRectLoop_last_max r b pre dj post (i + 1) m best hm hpre2 hpost]
      congr 1
      simp only [List.length_cons]
      omega

/-- Counterexample to C6: a non-empty display collection and a query
rectangle intersecting no display, on which getDisplayForRect does not
return none but the (last) display: the intersection areas are all zero
and zero still passes the >= -1 comparison of the loop. -/
theorem claim_C6_counterexample :
    (∀ d ∈ [dispSquare], ((boundsOf true d).getIntersection rectFar).area = 0) ∧
    getDisplayForRectIdx [dispSquare] rectFar true = some 0 := by
  constructor
  · decide
  · decide

/-- C6 as amended: getDisplayForRect returns none only for the empty
collection; on a non-empty collection whose displays all have empty
intersection with the query rectangle it returns the last display in
iteration order (every area is zero and the >= comparison keeps
overwriting the best match). -/
theorem claim_C6_lookup_miss_returns_last (ds : List Display) (q : RectZ) (b : Bool)
    (hne : ds ≠ [])
    (hmiss : ∀ d ∈ ds, ((boundsOf b d).getIntersection q).area = 0) :
    getDisplayForRectIdx ds q b = some (ds.length - 1) := by
  rcases List.eq_nil_or_concat ds with rfl | ⟨pre, dj, rfl⟩
  · exact absurd rfl hne
  · unfold getDisplayForRectIdx
    simp only [List.concat_eq_append] at hmiss ⊢
    rw [findRectLoop_last_max q b pre dj [] 0 (-1) none]
    · simp
    · have := hmiss dj (by simp)
      omega
    · intro d hd
      have h1 := hmiss d (by simp [hd])
      have h2 := hmiss dj (by simp)
      omega
    · intro d hd
      exact absurd hd (List.not_mem_nil d)

/-- Witness for the amended C6 at a concrete miss. -/
theorem claim_C6_lookup_miss_returns_last_witness :
    getDisplayForRectIdx [dispSquare] rectFar true = some 0 :=
  claim_C6_lookup_miss_returns_last [dispSquare] rectFar true (by simp) (by decide)

/-- C8: when two displays reach the same maximal intersection area with
the query rectangle (every other display staying strictly below), the
later of the two in iteration order is returned: the display list is
pre ++ di :: mid ++ dj :: post with di and dj of equal maximal area, and
the result is the position of dj, pre.length + 1 + mid.length. -/
theorem claim_C8_last_equal_area_wins (r : RectZ) (b : Bool)
    (pre mid post : List Display) (di dj : Display)
    (heq : ((boundsOf b di).getIntersection r).area = ((boundsOf b dj).getIntersection r).area)
    (hmax : ∀ d ∈ pre ++ mid ++ post,
      ((boundsOf b d).getIntersection r).area < ((boundsOf b dj).getIntersection r).area) :
    getDisplayForRectIdx (pre ++ di :: mid ++ dj :: post) r b =
      some (pre.length + 1 + mid.length) := by
  unfold getDisplayForRectIdx
  have hsplit : pre ++ di :: mid ++ dj :: post = (pre ++ di :: mid) ++ dj :: post := by
    simp
  rw [hsplit, findRectLoop_last_max r b (pre ++ di :: mid) dj post 0 (-1) none]
  · simp only [List.length_append, List.length_cons, Nat.zero_add]
    congr 1
    omega
  · have := interArea_nonneg (boundsOf b dj) r
    omega
  · intro d hd
    rcases List.mem_append.mp hd with hd1 | hd2
    · exact le_of_lt (hmax d (by simp [hd1]))
    · rcases List.mem_cons.mp hd2 with rfl | hd3
      · exact le_of_eq heq
      · exact le_of_lt (hmax d (by simp [hd3]))
  · intro d hd
    exact hmax d (by simp [hd])

/-- Witness for C8: two displays of equal maximal intersection area with
the query; the second one is returned. -/
theorem claim_C8_last_equal_area_wins_witness :
    getDisplayForRectIdx [dispSquare, dispTall] rectQuery true = some 1 :=
  claim_C8_last_equal_area_wins rectQuery true [] [] [] dispSquare dispTall
    (by decide) (by simp)

/-- The getDisplayForPoint loop short-circuits at the first display whose
bounds contain the point, whatever the distance accumulator holds. -/
theorem findPointLoop_first_contains (p : PtZ) (b : Bool) :
    ∀ (pre : List Display) (dj : Display) (post : List Display) (i : Nat)
      (best : Option (ℤ × Nat)),
      (∀ d ∈ pre, ¬ (boundsOf b d).containsPt p) →
      (boundsOf b dj).containsPt p →
      findPointLoop p b (pre ++ dj :: post) i best = some (i + pre.length)
  | [], dj, post, i, best, _, hj => by
    simp only [List.nil_append, findPointLoop, if_pos hj, List.length_nil, Nat.add_zero]
  | d :: pre, dj, post, i, best, hpre, hj => by
    have hd : ¬ (boundsOf b d).containsPt p := hpre d (List.mem_cons_self d pre)
    have hpre2 : ∀ x ∈ pre, ¬ (boundsOf b x).containsPt p :=
      fun x hx => hpre x (List.mem_cons_of_mem d hx)
    cases best with
    | none =>
      simp only [List.cons_append, findPointLoop, if_neg hd, List.append_eq]
      rw [findPointLoop_first_contains p b pre dj post (i + 1) _ hpre2 hj]
      congr 1
      simp only [List.length_cons]
      omega
    | some pair =>
      obtain ⟨minD, bi⟩ := pair
      simp only [List.cons_append, findPointLoop, if_neg hd, List.append_eq]
      by_cases hcmp : centreDistance (boundsOf b d).centre p ≤ minD
      · rw [if_pos hcmp, findPointLoop_first_contains p b pre dj post (i + 1) _ hpre2 hj]
        congr 1
        simp only [List.length_cons]
        omega
      · rw [if_neg hcmp, findPointLoop_first_contains p b pre dj post (i + 1) _ hpre2 hj]
        congr 1
        simp only [List.length_cons]
        omega

/-- Counterexample to C9: the probe point is strictly inside exactly one
display (dispAround) yet getDisplayForPoint returns the other one,
because the point lies on the included top-left boundary of dispCorner and the
half-open containment test short-circuits there first. -/
theorem claim_C9_counterexample :
    strictlyInsideSpec (boundsOf true dispAround) probePt ∧
    ¬ strictlyInsideSpec (boundsOf true dispCorner) probePt ∧
    getDisplayForPointIdx [dispCorner, dispAround] probePt true = some 0 := by
  refine ⟨by decide, by decide, by decide⟩

/-- C9 as amended: a point contained in the bounds of exactly one display
under the half-open containment test of the code (left and top edges included,
right and bottom excluded) always returns that display, regardless of any
other display having its bounds centre closer: containment short-circuits
the distance search. -/
theorem claim_C9_containment_short_circuit (p : PtZ) (b : Bool)
    (pre post : List Display) (dj : Display)
    (hpre : ∀ d ∈ pre, ¬ (boundsOf b d).containsPt p)
    (hpost : ∀ d ∈ post, ¬ (boundsOf b d).containsPt p)
    (hj : (boundsOf b dj).containsPt p) :
    getDisplayForPointIdx (pre ++ dj :: post) p b = some pre.length := by
  unfold getDisplayForPointIdx
  rw [findPointLoop_first_contains p b pre dj post 0 none hpre hj]
  simp

/-- Witness for the amended C9: the containing display is preceded by a
display whose centre is far closer-checked first yet not containing. -/
theorem claim_C9_containment_short_circuit_witness :
    getDisplayForPointIdx
      [mkDisplay { x := 100, y := 100, w := 10, h := 10 } 1 true, dispCorner] probePt true =
      some 1 := by
  have h := claim_C9_containment_short_circuit probePt true
    [mkDisplay { x := 100, y := 100, w := 10, h := 10 } 1 true] [] dispCorner
    (by decide) (by simp) (by decide)
  simpa using h

/-- Counterexample to C2: in cfgC2 the displays B and D touch along a
full edge in physical space (the bottom edge of B is the top edge of D), the
configuration is a connected edge-touching layout, yet after
updateToLogical their logical rectangles (B at [100,0,50,50], D at
[100,100,100,100]) do not touch at all: both were placed against the
root A, leaving a vertical gap between the logical bottom of B (50) and
the logical top of D (100). -/
theorem claim_C2_counterexample :
    sharesEdgeSpec (intRectToQ { x := 100, y := 0, w := 100, h := 100 })
      (intRectToQ { x := 100, y := 100, w := 100, h := 100 }) ∧
    (updateToLogical cfgC2).map Display.logicalBounds =
      [{ x := 0, y := 0, w := 100, h := 100 }, { x := 100, y := 0, w := 50, h := 50 },
       { x := 100, y := 100, w := 100, h := 100 }] ∧
    ¬ sharesEdgeSpec { x := 100, y := 0, w := 50, h := 50 }
        { x := 100, y := 100, w := 100, h := 100 } := by
  refine ⟨?_, ?_, ?_⟩
  · norm_num [sharesEdgeSpec, intRectToQ, RectQ.right, RectQ.bottom]
  · norm_num [cfgC2, mkDisplay, initNode, intRectToQ, updateToLogical, resolveNodes,
      selectRootIdx, firstRootIdx, markRoot, processLoop, linkChildren, coordAdj,
      placeChild, rectDivQ, rectSubPt, rectAddPt, RectQ.right, RectQ.bottom,
      RectQ.topLeft, resolveDisplay, Option.some_ne_none, List.zip, List.zipWith,
      Function.comp]
  · norm_num [sharesEdgeSpec, RectQ.right, RectQ.bottom]

/-- C2 as amended: the continuity invariant holds between each non-root
node and the parent it was placed against, on the side selected by the
first matching coordinate-adjacency test: whenever the physical rectangle
of the child passes one of the four edge-coordinate comparisons against
the physical rectangle of the parent (which is exactly when the graph scan
links it), the placed logical rectangle meets the logical parent rectangle
with no gap and no overlap on one of the four sides.  Physically touching
pairs that are not parent and child in the traversal get no such
guarantee (see the counterexample). -/
theorem claim_C2_parent_child_touch (physArea : RectQ) (scale : ℚ)
    (physParent logicalParent : RectQ) (parentScale : ℚ)
    (h : coordAdj physArea physParent) :
    (placeChild physArea scale physParent logicalParent parentScale).right =
        logicalParent.x ∨
    (placeChild physArea scale physParent logicalParent parentScale).x =
        logicalParent.right ∨
    (placeChild physArea scale physParent logicalParent parentScale).bottom =
        logicalParent.y ∨
    (placeChild physArea scale physParent logicalParent parentScale).y =
        logicalParent.bottom := by
  unfold coordAdj at h
  simp only [placeChild, RectQ.right, RectQ.bottom]
  split_ifs with h1 h2 h3 h4
  · left
    ring
  · right
    left
    rfl
  · right
    right
    left
    ring
  · right
    right
    right
    rfl
  · tauto

/-- Witness for the amended C2 at the concrete B-against-A placement of
the two-display scenario of the spec. -/
theorem claim_C2_parent_child_touch_witness :
    (placeChild { x := 1920, y := 0, w := 1280, h := 1024 } 2
        { x := 0, y := 0, w := 1920, h := 1080 } { x := 0, y := 0, w := 1920, h := 1080 }
        1).right = (0 : ℚ) ∨
    (placeChild { x := 1920, y := 0, w := 1280, h := 1024 } 2
        { x := 0, y := 0, w := 1920, h := 1080 } { x := 0, y := 0, w := 1920, h := 1080 }
        1).x = RectQ.right { x := 0, y := 0, w := 1920, h := 1080 } ∨
    (placeChild { x := 1920, y := 0, w := 1280, h := 1024 } 2
        { x := 0, y := 0, w := 1920, h := 1080 } { x := 0, y := 0, w := 1920, h := 1080 }
        1).bottom = (0 : ℚ) ∨
    (placeChild { x := 1920, y := 0, w := 1280, h := 1024 } 2
        { x := 0, y := 0, w := 1920, h := 1080 } { x := 0, y := 0, w := 1920, h := 1080 }
        1).y = RectQ.bottom { x := 0, y := 0, w := 1920, h := 1080 } :=
  claim_C2_parent_child_touch { x := 1920, y := 0, w := 1280, h := 1024 } 2
    { x := 0, y := 0, w := 1920, h := 1080 } { x := 0, y := 0, w := 1920, h := 1080 } 1
    (by norm_num [coordAdj, RectQ.right, RectQ.bottom])

/-- Counterexample to C3: in cfgC3 the traversal links display 1 as a
child of display 0 (its parent index becomes 0) although their physical
rectangles do not share an edge: only the left-edge x-coordinate of
display 1 equals the right-edge x-coordinate of display 0, while their
vertical ranges are disjoint. -/
theorem claim_C3_counterexample :
    ((resolveNodes cfgC3).get? 1).map NodeSt.parent = some (some 0) ∧
    ¬ sharesEdgeSpec (intRectToQ { x := 100, y := 200, w := 100, h := 100 })
        (intRectToQ { x := 0, y := 0, w := 100, h := 100 }) := by
  constructor
  · norm_num [cfgC3, mkDisplay, initNode, intRectToQ, resolveNodes, selectRootIdx,
      firstRootIdx, markRoot, processLoop, linkChildren, coordAdj, placeChild,
      rectDivQ, RectQ.right, RectQ.bottom, List.get?, Option.some_ne_none,
      List.getElem?_cons_succ, List.getElem?_cons_zero]
  · norm_num [sharesEdgeSpec, intRectToQ, RectQ.right, RectQ.bottom]

/-- C3 as amended: the set of indices linked as children during one
child scan is exactly the set of not-yet-resolved nodes (parent still
none) whose rectangle passes one of the four single-coordinate adjacency
comparisons against the current physical area; geometric edge-sharing is
not required (the perpendicular ranges are never compared). -/
theorem claim_C3_linked_children_exactly :
    ∀ (nodes : List NodeSt) (physArea : RectQ) (cur start j : Nat),
      j ∈ (linkChildren physArea cur start nodes).2 ↔
        ∃ k st, j = start + k ∧ nodes.get? k = some st ∧ st.parent = none ∧
          coordAdj st.bounds physArea
  | [], physArea, cur, start, j => by
    simp [linkChildren]
  | n :: rest, physArea, cur, start, j => by
    have ih := claim_C3_linked_children_exactly rest physArea cur (start + 1) j
    by_cases hc : n.parent = none ∧ coordAdj n.bounds physArea
    · simp only [linkChildren, if_pos hc, List.mem_cons]
      constructor
      · rintro (rfl | hj)
        · exact ⟨0, n, by omega, rfl, hc.1, hc.2⟩
        · obtain ⟨k, st, hk, hget, hp, ha⟩ := ih.mp hj
          exact ⟨k + 1, st, by omega, by simpa using hget, hp, ha⟩
      · rintro ⟨k, st, hk, hget, hp, ha⟩
        cases k with
        | zero => left; omega
        | succ k2 =>
          right
          exact ih.mpr ⟨k2, st, by omega, by simpa using hget, hp, ha⟩
    · simp only [linkChildren, if_neg hc]
      constructor
      · intro hj
        obtain ⟨k, st, hk, hget, hp, ha⟩ := ih.mp hj
        exact ⟨k + 1, st, by omega, by simpa using hget, hp, ha⟩
      · rintro ⟨k, st, hk, hget, hp, ha⟩
        cases k with
        | zero =>
          have hn : n = st := by simpa using hget
          subst hn
          exact absurd ⟨hp, ha⟩ hc
        | succ k2 => exact ih.mpr ⟨k2, st, by omega, by simpa using hget, hp, ha⟩

/-- The tie-based Display operator== agrees with propositional equality
of the records: all eleven fields equal iff the records are equal. -/
theorem displayEq_iff (a b : Display) : displayEq a b ↔ a = b := by
  unfold displayEq
  constructor
  · rintro ⟨h1, h2, h3, h4, h5, h6, h7, h8, h9, h10, h11⟩
    cases a
    cases b
    simp_all
  · rintro rfl
    exact ⟨rfl, rfl, rfl, rfl, rfl, rfl, rfl, rfl, rfl, rfl, rfl⟩

/-- Array equality of display lists agrees with propositional equality. -/
theorem displaysEqList_iff : ∀ (xs ys : List Display), displaysEqList xs ys ↔ xs = ys
  | [], [] => by simp [displaysEqList]
  | _ :: _, [] => by simp [displaysEqList]
  | [], _ :: _ => by simp [displaysEqList]
  | x :: xs, y :: ys => by
    simp [displaysEqList, displayEq_iff, displaysEqList_iff xs ys]

/-- C10: refresh notifies if and only if the re-enumerated record set
differs under full-field record equality: when every record is
field-for-field identical no peer is notified, and when any field of any
record differs every live peer receives the broadcast. -/
theorem claim_C10_refresh_notifications (oldD newD : List Display) (peers : List Nat) :
    (oldD = newD → refreshNotifications oldD newD peers = []) ∧
    (oldD ≠ newD → refreshNotifications oldD newD peers = peers) := by
  unfold refreshNotifications
  constructor
  · rintro rfl
    rw [if_pos ((displaysEqList_iff oldD oldD).mpr rfl)]
  · intro h
    rw [if_neg fun hc => h ((displaysEqList_iff oldD newD).mp hc)]

/-- Witness for C10: identical lists produce no notification; lists
differing in one record broadcast to every peer. -/
theorem claim_C10_refresh_notifications_witness :
    refreshNotifications [dispSquare] [dispSquare] [3, 7] = [] ∧
    refreshNotifications [dispSquare] [dispTall] [3, 7] = [3, 7] :=
  ⟨(claim_C10_refresh_notifications [dispSquare] [dispSquare] [3, 7]).1 rfl,
   (claim_C10_refresh_notifications [dispSquare] [dispTall] [3, 7]).2
     (by norm_num [dispSquare, dispTall, mkDisplay, intRectToQ])⟩

end JuceDisplays
